import Mathlib

set_option autoImplicit false

/-!
Shallow embedding of the storage-receipt verification and address codec of
oasis-core (`go/roothash/api/block/header.go` together with the node address
codec it bundles), plus a spec-modelled view of the replicated storage
client's availability behaviour. Byte strings are lists of naturals, Go text
is a list of characters, and fallible Go functions return `Except`.
-/

deriving instance DecidableEq for Except

namespace OasisCore

/-- A byte string; each entry is one byte value. -/
abbrev Bytes := List Nat

/-- Go text, modelled character by character. -/
abbrev Text := List Char

/-- `common.Namespace`: fixed-size byte identifier of a runtime's storage
shard; `Namespace.Equal` is byte equality. -/
abbrev Namespace := Bytes

/-- `hash.Hash`: a fixed-size digest, modelled by its byte content;
`bytes.Equal` on two digests is list equality. -/
abbrev Hash := Bytes

/-- `HeaderType` is the type of header (a `uint8`). -/
abbrev HeaderType := Nat

/-- `Normal` is a normal header. -/
def Normal : HeaderType := 0

/-- `RoundFailed` is a header resulting from a failed round. -/
def RoundFailed : HeaderType := 1

/-- `EpochTransition` is a header resulting from an epoch transition. -/
def EpochTransition : HeaderType := 2

/-- `Header` is a block header (`roothash/api/block/header.go`). The roothash
message type and the signature type are opaque to every operation embedded
here, so they are type parameters `Msg` and `Sig`. -/
structure Header (Msg Sig : Type) where
  Version : Nat
  Namespace : OasisCore.Namespace
  Round : Nat
  Timestamp : Nat
  HeaderType : OasisCore.HeaderType
  PreviousHash : Hash
  IORoot : Hash
  StateRoot : Hash
  RoothashMessages : List Msg
  StorageSignatures : List Sig
  deriving DecidableEq

/-- `storage.ReceiptBody`: claim by a storage node that it holds the given
roots for a namespace and round. -/
structure ReceiptBody where
  Version : Nat
  Namespace : OasisCore.Namespace
  Round : Nat
  Roots : List Hash
  deriving DecidableEq

/-- `Header.RootsForStorageReceipt` gets the merkle roots that must be part
of a storage receipt: `[IORoot, StateRoot]` in that order. -/
def Header.RootsForStorageReceipt {Msg Sig : Type} (h : Header Msg Sig) : List Hash :=
  [h.IORoot, h.StateRoot]

/-- `Header.VerifyStorageReceipt` validates that the provided storage receipt
body matches the header. The Go root loop indexes `receipt.Roots` under the
already-established length equality, so it is rendered as a pointwise check
over the zipped lists; every mismatching index yields the same error value. -/
def Header.VerifyStorageReceipt {Msg Sig : Type} (h : Header Msg Sig)
    (receipt : ReceiptBody) : Except String Unit :=
  if receipt.Namespace ≠ h.Namespace then
    .error "roothash: receipt has unexpected namespace"
  else if receipt.Round ≠ h.Round then
    .error "roothash: receipt has unexpected round"
  else if receipt.Roots.length ≠ h.RootsForStorageReceipt.length then
    .error "roothash: receipt has unexpected number of roots"
  else if (h.RootsForStorageReceipt.zip receipt.Roots).all fun p => p.1 == p.2 then
    .ok ()
  else
    .error "roothash: receipt has unexpected roots"

/-- Modelled from the spec: `cbor.Marshal` on a receipt body is not part of
the source bundle. The spec states the signature is over the canonical
encoding of the body, and canonical encoding is injective, so the encoding is
modelled by the body value itself. -/
def ReceiptBody.MarshalCBOR (b : ReceiptBody) : ReceiptBody := b

/-- `signature.Signed` as used by `storage.Receipt`: an encoded blob plus one
signature over it. -/
structure Signed (Sig : Type) where
  Blob : ReceiptBody
  Signature : Sig

/-- Modelled from the spec: opening a signed blob (`signature.Signed.Open`,
not part of the source bundle) checks the signature against the canonical
encoding and fails with a signature-verification error that does not identify
the signer. The cryptographic check itself is abstracted as `verify`. -/
def Signed.Open {Sig : Type} (verify : Sig → ReceiptBody → Bool)
    (s : Signed Sig) : Except String ReceiptBody :=
  if verify s.Signature s.Blob then .ok s.Blob
  else .error "signature verification failed"

/-- The receipt body that `Header.VerifyStorageReceiptSignatures` re-derives
from the header: version 1, the header's namespace and round, and
`RootsForStorageReceipt`. -/
def Header.storageReceiptBody {Msg Sig : Type} (h : Header Msg Sig) : ReceiptBody :=
  { Version := 1
    Namespace := h.Namespace
    Round := h.Round
    Roots := h.RootsForStorageReceipt }

/-- The signature loop of `Header.VerifyStorageReceiptSignatures`: open each
signature in order against the fixed blob, returning the first open error. -/
def openAllSignatures {Sig : Type} (verify : Sig → ReceiptBody → Bool)
    (blob : ReceiptBody) : List Sig → Except String Unit
  | [] => .ok ()
  | sig :: rest =>
    match Signed.Open verify { Blob := blob, Signature := sig } with
    | .error e => .error e
    | .ok _ => openAllSignatures verify blob rest

/-- `Header.VerifyStorageReceiptSignatures` validates that the storage receipt
signatures match the signatures for the current merkle roots. -/
def Header.VerifyStorageReceiptSignatures {Msg Sig : Type}
    (verify : Sig → ReceiptBody → Bool) (h : Header Msg Sig) : Except String Unit :=
  openAllSignatures verify (h.storageReceiptBody.MarshalCBOR) h.StorageSignatures

/-- Modelled from the spec: `Header.EncodedHash` canonically encodes the
header and hashes it (`hash.Hash.From` and the CBOR codec are not part of the
source bundle); the spec uses the digest as "the block's own identity", so
the digest is modelled by the injective canonical form of the header, i.e.
the header value itself. -/
def Header.EncodedHash {Msg Sig : Type} (h : Header Msg Sig) : Header Msg Sig := h

/-- `Header.MostlyEqual` compares with another header for equality, clearing
the `StorageSignatures` field in local copies of both and comparing encoded
hashes (`hash.Hash.Equal` is digest equality). -/
def Header.MostlyEqual {Msg Sig : Type} [DecidableEq Msg] [DecidableEq Sig]
    (h cmp : Header Msg Sig) : Bool :=
  let a : Header Msg Sig := { h with StorageSignatures := [] }
  let b : Header Msg Sig := { cmp with StorageSignatures := [] }
  decide (a.EncodedHash = b.EncodedHash)

/-- `Header.MostlyEqual` with the Go heap made explicit: the method
dereferences its two pointers (the heap is the pair of pointed-to headers),
copies the headers into locals `a` and `b`, clears the signature list only on
those locals, and returns the comparison together with the heap as the method
leaves it. -/
def Header.MostlyEqualHeap {Msg Sig : Type} [DecidableEq Msg] [DecidableEq Sig]
    (heap : Header Msg Sig × Header Msg Sig) : Bool × (Header Msg Sig × Header Msg Sig) :=
  let a := heap.1
  let b := heap.2
  let a' : Header Msg Sig := { a with StorageSignatures := [] }
  let b' : Header Msg Sig := { b with StorageSignatures := [] }
  (decide (a'.EncodedHash = b'.EncodedHash), heap)

/-- A header with its `StorageSignatures` list cleared; vocabulary for the
`MostlyEqual` comparison. -/
def Header.clearStorageSignatures {Msg Sig : Type} (h : Header Msg Sig) : Header Msg Sig :=
  { h with StorageSignatures := [] }

/-- `net.IP`: an IP address as its byte content; the 4-byte and 16-byte forms
are the valid ones. -/
abbrev IP := Bytes

/-- The 12-byte marker prefixing an IPv4-mapped IPv6 address (ten zero bytes
then `0xff, 0xff`), as in package `net`. -/
def v4InV6 : Bytes := [0, 0, 0, 0, 0, 0, 0, 0, 0, 0, 255, 255]

/-- `net.IP.To4`: the 4-byte form of an IPv4 address (either already 4 bytes,
or 16 bytes carrying the IPv4-mapped marker), `none` otherwise. -/
def IP.To4 (ip : IP) : Option IP :=
  if ip.length = 4 then some ip
  else if ip.length = 16 ∧ ip.take 12 = v4InV6 then some (ip.drop 12)
  else none

/-- `net.IP.To16`: the 16-byte form of an address, `none` when the byte length
is neither 4 nor 16. -/
def IP.To16 (ip : IP) : Option IP :=
  if ip.length = 4 then some (v4InV6 ++ ip)
  else if ip.length = 16 then some ip
  else none

/-- The errors of the node address codec. `invalidAddress` is
`ErrInvalidAddress`, `consensusAddressNoID` is `ErrConsensusAddressNoID`;
`publicKeyHex` models the (out-of-bundle) `signature.PublicKey.UnmarshalHex`
failure; the two wrap constructors model the `fmt.Errorf("...: %w", err)`
wrapping done by `ConsensusAddress.UnmarshalText`. -/
inductive NodeErr where
  | invalidAddress
  | consensusAddressNoID
  | publicKeyHex
  | idParseWrap (e : NodeErr)
  | addrParseWrap (e : NodeErr)
  deriving DecidableEq

/-- `Address` represents a TCP address for node descriptors; it embeds
`net.TCPAddr` (IP, port, zone), with the port a Go `int`. -/
structure Address where
  IP : OasisCore.IP
  Port : Int
  Zone : String
  deriving DecidableEq

/-- The transport tag of a `pbCommon.Address`; any tag other than the two TCP
ones is collapsed into `other` (the Go enum is open). -/
inductive ProtoTransport where
  | TCPv4
  | TCPv6
  | other
  deriving DecidableEq

/-- `pbCommon.Address`: the binary wire form of an address — a transport tag,
the raw IP bytes, and a `uint32` port. -/
structure ProtoAddress where
  Transport : ProtoTransport
  Address : Bytes
  Port : Nat
  deriving DecidableEq

/-- `parseProtoAddress`: decode the binary wire form, failing with
`ErrInvalidAddress` when the transport tag is unknown, when the declared byte
length does not match the tag, or when the port exceeds `math.MaxUint16`. -/
def parseProtoAddress (pb : ProtoAddress) : Except NodeErr Address :=
  let ipLen? : Option Nat :=
    match pb.Transport with
    | .TCPv4 => some 4
    | .TCPv6 => some 16
    | .other => none
  match ipLen? with
  | none => .error .invalidAddress
  | some ipLen =>
    if pb.Address.length ≠ ipLen then .error .invalidAddress
    else if pb.Port > 65535 then .error .invalidAddress
    else .ok { IP := pb.Address, Port := Int.ofNat pb.Port, Zone := "" }

/-- `toProtoAddress`: encode an address into its binary wire form, tagging it
as the 4-byte or 16-byte family; the Go function panics when the IP is
neither, which is modelled by `none`. `uint32(addr.Port)` truncates the Go
`int` modulo `2 ^ 32`. -/
def toProtoAddress (addr : Address) : Option ProtoAddress :=
  match addr.IP.To4 with
  | some rawIP =>
    some { Transport := .TCPv4, Address := rawIP, Port := (addr.Port.emod (2 ^ 32)).toNat }
  | none =>
    match addr.IP.To16 with
    | some rawIP =>
      some { Transport := .TCPv6, Address := rawIP, Port := (addr.Port.emod (2 ^ 32)).toNat }
    | none => none

/-- `strings.Split` with a one-character separator: split the text around
every occurrence of `sep` (empty input yields one empty segment, as in Go). -/
def splitOnChar (sep : Char) : Text → List Text
  | [] => [[]]
  | c :: rest =>
    let r := splitOnChar sep rest
    if c = sep then [] :: r
    else
      match r with
      | s :: ss => (c :: s) :: ss
      | [] => [[c]]

/-- The numeric value of a hexadecimal digit, if the character is one. -/
def hexDigit? (c : Char) : Option Nat :=
  if '0' ≤ c ∧ c ≤ '9' then some (c.toNat - '0'.toNat)
  else if 'a' ≤ c ∧ c ≤ 'f' then some (c.toNat - 'a'.toNat + 10)
  else if 'A' ≤ c ∧ c ≤ 'F' then some (c.toNat - 'A'.toNat + 10)
  else none

/-- Decode a hexadecimal text into bytes, two digits per byte; `none` on a
non-hex character or odd length. -/
def hexBytes? : Text → Option Bytes
  | [] => some []
  | [_] => none
  | c1 :: c2 :: rest =>
    match hexDigit? c1, hexDigit? c2, hexBytes? rest with
    | some hi, some lo, some bs => some ((16 * hi + lo) :: bs)
    | _, _, _ => none

/-- `signature.PublicKey`: an Ed25519 public key, 32 bytes. -/
abbrev PublicKey := Bytes

/-- The byte size of a public key. -/
def publicKeySize : Nat := 32

/-- Modelled from the spec: `signature.PublicKey.UnmarshalHex` (not part of
the source bundle) decodes the hex identity segment into the key bytes,
failing on non-hex input or on a length other than the key size. -/
def PublicKey.UnmarshalHex (s : Text) : Except NodeErr PublicKey :=
  match hexBytes? s with
  | some bs => if bs.length = publicKeySize then .ok bs else .error .publicKeyHex
  | none => .error .publicKeyHex

/-- Parse a non-empty decimal text into a natural number. -/
def parseDecimal? (s : Text) : Option Nat :=
  if s.isEmpty then none
  else if s.all fun c => decide ('0' ≤ c ∧ c ≤ '9') then
    some (s.foldl (fun n c => 10 * n + (c.toNat - '0'.toNat)) 0)
  else none

/-- Parse one dotted-quad segment: a decimal byte value at most 255. -/
def parseIPv4Byte? (s : Text) : Option Nat :=
  match parseDecimal? s with
  | some n => if n ≤ 255 then some n else none
  | none => none

/-- Parse a dotted-quad IPv4 host into its 4 bytes. -/
def parseIPv4? (s : Text) : Option IP :=
  match (splitOnChar '.' s).mapM parseIPv4Byte? with
  | some bs => if bs.length = 4 then some bs else none
  | none => none

/-- Parse one 16-bit hexadecimal IPv6 group. -/
def parseHexGroup? (s : Text) : Option Nat :=
  if s.isEmpty ∨ 4 < s.length then none
  else
    s.foldl
      (fun acc c =>
        match acc, hexDigit? c with
        | some n, some d => some (16 * n + d)
        | _, _ => none)
      (some 0)

/-- The byte form of a list of 16-bit groups (big endian within each group). -/
def groupsToBytes (gs : List Nat) : Bytes :=
  (gs.map fun g => [g / 256, g % 256]).flatten

/-- Parse an IPv6 host (8 colon-separated hex groups, with at most one `::`
zero-compression) into its 16 bytes. -/
def parseIPv6? (s : Text) : Option IP :=
  let expand (l r : List Nat) : Option IP :=
    if l.length + r.length ≤ 8 then
      some (groupsToBytes (l ++ List.replicate (8 - l.length - r.length) 0 ++ r))
    else none
  match splitOnChar ':' s with
  | gs =>
    -- a `::` shows up as an empty segment between two colons
    match gs.splitOn [] with
    | [whole] =>
      match whole.mapM parseHexGroup? with
      | some l => if l.length = 8 then some (groupsToBytes l) else none
      | none => none
    | [l, r] =>
      match l.mapM parseHexGroup?, r.mapM parseHexGroup? with
      | some lg, some rg => expand lg rg
      | _, _ => none
    | [l, [], r] =>
      -- a leading, trailing or lone `::` produces two consecutive empties
      if l = [] ∨ r = [] then
        match l.mapM parseHexGroup?, r.mapM parseHexGroup? with
        | some lg, some rg => expand lg rg
        | _, _ => none
      else none
    | _ => none

/-- Split an endpoint text at its last colon into host and port texts. -/
def splitHostPort? (s : Text) : Option (Text × Text) :=
  let parts := splitOnChar ':' s
  if parts.length < 2 then none
  else some (List.intercalate [':'] parts.dropLast, parts.getLastD [])

/-- Modelled from the spec: `net.ResolveTCPAddr` on a text address (not part
of the source bundle): the text form is `ip:port` with IPv6 hosts in square
brackets; parsing fails if the text is not a valid IPv4 or IPv6 endpoint. -/
def Address.UnmarshalText (text : Text) : Except NodeErr Address :=
  match splitHostPort? text with
  | none => .error .invalidAddress
  | some (host, portText) =>
    match parseDecimal? portText with
    | none => .error .invalidAddress
    | some port =>
      if port > 65535 then .error .invalidAddress
      else
        match parseIPv4? host with
        | some ip => .ok { IP := ip, Port := Int.ofNat port, Zone := "" }
        | none =>
          match host with
          | '[' :: rest =>
            if rest.getLastD ' ' = ']' then
              match parseIPv6? rest.dropLast with
              | some ip => .ok { IP := ip, Port := Int.ofNat port, Zone := "" }
              | none => .error .invalidAddress
            else .error .invalidAddress
          | _ => .error .invalidAddress

/-- `ConsensusAddress` represents a Tendermint consensus address: an identity
plus a TCP address. -/
structure ConsensusAddress where
  ID : PublicKey
  Address : OasisCore.Address
  deriving DecidableEq

/-- `ConsensusAddress.UnmarshalText`: split the text on `@`; anything other
than exactly two segments is `ErrConsensusAddressNoID`; then parse the
identity segment as hex and the rest as a TCP address, wrapping either
failure. -/
def ConsensusAddress.UnmarshalText (text : Text) : Except NodeErr ConsensusAddress :=
  match splitOnChar '@' text with
  | [idText, addrText] =>
    match PublicKey.UnmarshalHex idText with
    | .error e => .error (.idParseWrap e)
    | .ok id =>
      match Address.UnmarshalText addrText with
      | .error e => .error (.addrParseWrap e)
      | .ok addr => .ok { ID := id, Address := addr }
  | _ => .error .consensusAddressNoID

/-- `net.IPNet`: an IP network, a base address plus a mask. -/
structure IPNet where
  IP : OasisCore.IP
  Mask : Bytes
  deriving DecidableEq

/-- `net.CIDRMask`: the mask of `ones` leading one bits over `bytes` bytes. -/
def CIDRMask (ones bytes : Nat) : Bytes :=
  (List.range bytes).map fun i =>
    if 8 * (i + 1) ≤ ones then 255
    else if 8 * i < ones then (255 <<< (8 - (ones - 8 * i))) % 256
    else 0

/-- `networkNumberAndMask` from package `net`: normalise the network base to
its 4-byte form when it is IPv4, and align the mask length with it. -/
def networkNumberAndMask (n : IPNet) : Option (OasisCore.IP × Bytes) :=
  let ip? : Option OasisCore.IP :=
    match n.IP.To4 with
    | some x => some x
    | none => if n.IP.length = 16 then some n.IP else none
  match ip? with
  | none => none
  | some ip =>
    if n.Mask.length = 4 then
      if ip.length ≠ 4 then none else some (ip, n.Mask)
    else if n.Mask.length = 16 then
      if ip.length = 4 then some (ip, n.Mask.drop 12) else some (ip, n.Mask)
    else none

/-- `net.IPNet.Contains`: normalise the queried IP to its 4-byte form when
possible, require equal lengths, and compare under the mask byte by byte. -/
def IPNet.Contains (n : IPNet) (ip : OasisCore.IP) : Bool :=
  match networkNumberAndMask n with
  | none => false
  | some (nn, m) =>
    let ip := match ip.To4 with
      | some x => x
      | none => ip
    if nn.length ≠ ip.length then false
    else
      (List.range ip.length).all fun i =>
        (nn.getD i 0) &&& (m.getD i 0) == (ip.getD i 0) &&& (m.getD i 0)

/-- One IPv4 entry of the reserved-network table: the numeric form
`net.ParseCIDR` produces for it (masked base address plus mask). -/
def cidr4 (a b c d ones : Nat) : IPNet :=
  { IP := [a, b, c, d], Mask := CIDRMask ones 4 }

/-- One IPv6 entry of the reserved-network table, given as its eight 16-bit
groups plus the prefix length. -/
def cidr6 (gs : List Nat) (ones : Nat) : IPNet :=
  { IP := groupsToBytes gs, Mask := CIDRMask ones 16 }

/-- `unroutableNetworks`: the reserved-network table the package `init`
builds once from its RFC 6890 CIDR list, transcribed entry for entry. -/
def unroutableNetworks : List IPNet :=
  [ cidr4 0 0 0 0 8             -- 0.0.0.0/8          RFC 1122
  , cidr4 10 0 0 0 8            -- 10.0.0.0/8         RFC 1918
  , cidr4 100 64 0 0 10         -- 100.64.0.0/10      RFC 6598
  , cidr4 127 0 0 0 8           -- 127.0.0.0/8        RFC 1122
  , cidr4 169 254 0 0 16        -- 169.254.0.0/16     RFC 3927
  , cidr4 172 16 0 0 12         -- 172.16.0.0/12      RFC 1918
  , cidr4 192 0 0 0 24          -- 192.0.0.0/24       RFC 6890
  , cidr4 192 0 0 0 29          -- 192.0.0.0/29       RFC 6333
  , cidr4 192 0 2 0 24          -- 192.0.2.0/24       RFC 5737
  , cidr4 192 168 0 0 16        -- 192.168.0.0/16     RFC 1918
  , cidr4 192 18 0 0 15         -- 192.18.0.0/15      RFC 2544
  , cidr4 198 51 100 0 24       -- 198.51.100.0/24    RFC 5737
  , cidr4 203 0 113 0 24        -- 203.0.113.0/24     RFC 5737
  , cidr4 240 0 0 0 4           -- 240.0.0.0/4        RFC 1112
  , cidr4 255 255 255 255 32    -- 255.255.255.255/32 RFC 919
  , cidr6 [0, 0, 0, 0, 0, 0, 0, 1] 128                -- ::1/128
  , cidr6 [0, 0, 0, 0, 0, 0, 0, 0] 128                -- ::/128
  , cidr6 [0x100, 0, 0, 0, 0, 0, 0, 0] 64             -- 100::/64
  , cidr6 [0x2001, 0, 0, 0, 0, 0, 0, 0] 32            -- 2001::/32
  , cidr6 [0x2001, 0x2, 0, 0, 0, 0, 0, 0] 48          -- 2001:2::/48
  , cidr6 [0x2001, 0xdb8, 0, 0, 0, 0, 0, 0] 32        -- 2001:db8::/32
  , cidr6 [0x2001, 0x10, 0, 0, 0, 0, 0, 0] 28         -- 2001:10::/28
  , cidr6 [0x2002, 0, 0, 0, 0, 0, 0, 0] 16            -- 2002::/16
  , cidr6 [0xfc00, 0, 0, 0, 0, 0, 0, 0] 7             -- fc00::/7
  , cidr6 [0xfe80, 0, 0, 0, 0, 0, 0, 0] 10 ]          -- fe80::/10

/-- `Address.IsRoutable` returns true iff no reserved network contains the
address's IP. -/
def Address.IsRoutable (a : Address) : Bool :=
  unroutableNetworks.all fun v => ! v.Contains a.IP

/-- The errors the replicated storage client surfaces (spec 4.5 and 7):
`storageNotAvailable` when no committee membership is known yet,
`unavailable` when the known peers are unreachable or time out. -/
inductive ClientError where
  | storageNotAvailable
  | unavailable
  | cancelled
  deriving DecidableEq

/-- Modelled from the spec: the replicated storage client's availability
state (the client code is not part of the source bundle; spec 4.5):
whether the one-shot initialized signal has fired, and the live connection
set. -/
structure StorageClientState (Conn : Type) where
  initialized : Bool
  conns : List Conn

/-- Modelled from the spec: a freshly constructed client — subscribed to the
committee watcher but with no membership notification received and no
connections yet (spec 4.5, Uninitialized). -/
def initialClientState (Conn : Type) : StorageClientState Conn :=
  { initialized := false, conns := [] }

/-- Modelled from the spec: a committee-membership notification replaces the
connection set wholesale with one connection per member and marks the client
initialized (spec 4.5, Initializing to Ready). `connect` opens a connection
to a member; opening succeeds even when the peer will never answer. -/
def applyCommittee {Conn Node : Type} (connect : Node → Conn)
    (st : StorageClientState Conn) (members : List Node) : StorageClientState Conn :=
  let _ := st
  { initialized := true, conns := members.map connect }

/-- Modelled from the spec: the read path (spec 4.5): with an empty connection
set fail immediately with `storageNotAvailable`; otherwise dispatch across the
connected members and, if every peer fails or times out within the deadline,
surface `unavailable`. `attempt` is each peer's response within the deadline
(`none` meaning unreachable or timed out). -/
def syncGet {Conn V : Type} (st : StorageClientState Conn)
    (attempt : Conn → Option V) : Except ClientError V :=
  if st.conns.isEmpty then .error .storageNotAvailable
  else
    match st.conns.findSome? attempt with
    | some v => .ok v
    | none => .error .unavailable

/-! Theorems. -/

/-- A concrete header used to instantiate the receipt theorems. -/
def exampleHeader : Header Unit Unit :=
  { Version := 1
    Namespace := [1, 2]
    Round := 7
    Timestamp := 0
    HeaderType := Normal
    PreviousHash := [0]
    IORoot := [3]
    StateRoot := [4]
    RoothashMessages := []
    StorageSignatures := [] }

/-- A concrete receipt body matching `exampleHeader`. -/
def exampleReceiptBody : ReceiptBody :=
  { Version := 1, Namespace := [1, 2], Round := 7, Roots := [[3], [4]] }

/-- The namespace check of `VerifyStorageReceipt` fires first. -/
lemma verifyStorageReceipt_ns_error {Msg Sig : Type} (h : Header Msg Sig) (b : ReceiptBody)
    (hns : b.Namespace ≠ h.Namespace) :
    Header.VerifyStorageReceipt h b = .error "roothash: receipt has unexpected namespace" := by
  unfold Header.VerifyStorageReceipt
  rw [if_pos hns]

/-- The round check of `VerifyStorageReceipt` fires second. -/
lemma verifyStorageReceipt_round_error {Msg Sig : Type} (h : Header Msg Sig) (b : ReceiptBody)
    (hns : b.Namespace = h.Namespace) (hr : b.Round ≠ h.Round) :
    Header.VerifyStorageReceipt h b = .error "roothash: receipt has unexpected round" := by
  unfold Header.VerifyStorageReceipt
  rw [if_neg (not_not_intro hns), if_pos hr]

/-- The root-count check of `VerifyStorageReceipt` fires third. -/
lemma verifyStorageReceipt_count_error {Msg Sig : Type} (h : Header Msg Sig) (b : ReceiptBody)
    (hns : b.Namespace = h.Namespace) (hr : b.Round = h.Round) (hlen : b.Roots.length ≠ 2) :
    Header.VerifyStorageReceipt h b = .error "roothash: receipt has unexpected number of roots" := by
  unfold Header.VerifyStorageReceipt
  rw [if_neg (not_not_intro hns), if_neg (not_not_intro hr),
    if_pos (show b.Roots.length ≠ h.RootsForStorageReceipt.length from hlen)]

/-- The root-content check of `VerifyStorageReceipt` fires last. -/
lemma verifyStorageReceipt_roots_error {Msg Sig : Type} (h : Header Msg Sig) (b : ReceiptBody)
    (hns : b.Namespace = h.Namespace) (hr : b.Round = h.Round) (hlen : b.Roots.length = 2)
    (hne : b.Roots ≠ [h.IORoot, h.StateRoot]) :
    Header.VerifyStorageReceipt h b = .error "roothash: receipt has unexpected roots" := by
  obtain ⟨x, y, hxy⟩ := List.length_eq_two.mp hlen
  have hall : ((h.RootsForStorageReceipt.zip b.Roots).all fun p => p.1 == p.2) = false := by
    rw [hxy] at hne ⊢
    simp only [Header.RootsForStorageReceipt, List.zip_cons_cons, List.zip_nil_right,
      List.all_cons, List.all_nil, Bool.and_true, Bool.and_eq_false_iff, beq_eq_false_iff_ne,
      ne_eq]
    by_contra hcon
    push_neg at hcon
    exact hne (by rw [← hcon.1, ← hcon.2])
  unfold Header.VerifyStorageReceipt
  rw [if_neg (not_not_intro hns), if_neg (not_not_intro hr),
    if_neg (show ¬b.Roots.length ≠ h.RootsForStorageReceipt.length from not_not_intro hlen),
    if_neg (by simp [hall])]

/-- `VerifyStorageReceipt` accepts a matching receipt body. -/
lemma verifyStorageReceipt_ok {Msg Sig : Type} (h : Header Msg Sig) (b : ReceiptBody)
    (hns : b.Namespace = h.Namespace) (hr : b.Round = h.Round)
    (hroots : b.Roots = [h.IORoot, h.StateRoot]) :
    Header.VerifyStorageReceipt h b = .ok () := by
  have hlen : b.Roots.length = 2 := by rw [hroots]; rfl
  have hall : ((h.RootsForStorageReceipt.zip b.Roots).all fun p => p.1 == p.2) = true := by
    rw [hroots]
    simp [Header.RootsForStorageReceipt]
  unfold Header.VerifyStorageReceipt
  rw [if_neg (not_not_intro hns), if_neg (not_not_intro hr),
    if_neg (show ¬b.Roots.length ≠ h.RootsForStorageReceipt.length from not_not_intro hlen),
    if_pos hall]

/-- C1: `VerifyStorageReceipt h b` succeeds iff the receipt's namespace and
round equal the header's and its root list is exactly `[IORoot, StateRoot]`;
each single-field mismatch yields its own descriptive error, and the four
error messages are pairwise distinct. -/
theorem verifyStorageReceipt_spec {Msg Sig : Type} (h : Header Msg Sig) (b : ReceiptBody) :
    (Header.VerifyStorageReceipt h b = .ok () ↔
      b.Namespace = h.Namespace ∧ b.Round = h.Round ∧ b.Roots = [h.IORoot, h.StateRoot]) ∧
    (b.Namespace ≠ h.Namespace →
      Header.VerifyStorageReceipt h b = .error "roothash: receipt has unexpected namespace") ∧
    (b.Namespace = h.Namespace → b.Round ≠ h.Round →
      Header.VerifyStorageReceipt h b = .error "roothash: receipt has unexpected round") ∧
    (b.Namespace = h.Namespace → b.Round = h.Round → b.Roots.length ≠ 2 →
      Header.VerifyStorageReceipt h b = .error "roothash: receipt has unexpected number of roots") ∧
    (b.Namespace = h.Namespace → b.Round = h.Round → b.Roots.length = 2 →
      b.Roots ≠ [h.IORoot, h.StateRoot] →
      Header.VerifyStorageReceipt h b = .error "roothash: receipt has unexpected roots") ∧
    (("roothash: receipt has unexpected namespace" : String) ≠
        "roothash: receipt has unexpected round" ∧
      ("roothash: receipt has unexpected namespace" : String) ≠
        "roothash: receipt has unexpected number of roots" ∧
      ("roothash: receipt has unexpected namespace" : String) ≠
        "roothash: receipt has unexpected roots" ∧
      ("roothash: receipt has unexpected round" : String) ≠
        "roothash: receipt has unexpected number of roots" ∧
      ("roothash: receipt has unexpected round" : String) ≠
        "roothash: receipt has unexpected roots" ∧
      ("roothash: receipt has unexpected number of roots" : String) ≠
        "roothash: receipt has unexpected roots") := by
  refine ⟨?_, verifyStorageReceipt_ns_error h b, verifyStorageReceipt_round_error h b,
    verifyStorageReceipt_count_error h b, verifyStorageReceipt_roots_error h b, by decide⟩
  constructor
  · intro hok
    by_cases hns : b.Namespace = h.Namespace
    · by_cases hr : b.Round = h.Round
      · by_cases hroots : b.Roots = [h.IORoot, h.StateRoot]
        · exact ⟨hns, hr, hroots⟩
        · by_cases hlen : b.Roots.length = 2
          · rw [verifyStorageReceipt_roots_error h b hns hr hlen hroots] at hok
            exact Except.noConfusion hok
          · rw [verifyStorageReceipt_count_error h b hns hr hlen] at hok
            exact Except.noConfusion hok
      · rw [verifyStorageReceipt_round_error h b hns hr] at hok
        exact Except.noConfusion hok
    · rw [verifyStorageReceipt_ns_error h b hns] at hok
      exact Except.noConfusion hok
  · rintro ⟨hns, hr, hroots⟩
    exact verifyStorageReceipt_ok h b hns hr hroots

/-- Witness for C1 at concrete inputs: the matching receipt body is accepted
and a wrong-round body is rejected with the round error. -/
theorem verifyStorageReceipt_spec_witness :
    Header.VerifyStorageReceipt exampleHeader exampleReceiptBody = .ok () ∧
    Header.VerifyStorageReceipt exampleHeader { exampleReceiptBody with Round := 8 } =
      .error "roothash: receipt has unexpected round" := by
  constructor
  · exact (verifyStorageReceipt_spec exampleHeader exampleReceiptBody).1.mpr (by decide)
  · exact (verifyStorageReceipt_spec exampleHeader
      { exampleReceiptBody with Round := 8 }).2.2.1 (by decide) (by decide)

/-- The signature loop opens signatures in order and stops at the first one
that fails, so its result is determined by `List.find?` on failing
signatures. -/
lemma openAllSignatures_eq_find {Sig : Type} (verify : Sig → ReceiptBody → Bool)
    (blob : ReceiptBody) (l : List Sig) :
    openAllSignatures verify blob l =
      match l.find? (fun s => ! verify s blob) with
      | some _ => .error "signature verification failed"
      | none => .ok () := by
  induction l with
  | nil => rfl
  | cons s rest ih =>
    by_cases hv : verify s blob
    · simp [openAllSignatures, Signed.Open, List.find?_cons, hv, ih]
    · simp [openAllSignatures, Signed.Open, List.find?_cons, hv]

/-- A concrete header carrying numeric signatures, for the signature-set
witnesses. -/
def exampleSigHeader : Header Unit Nat :=
  { Version := 1
    Namespace := [1, 2]
    Round := 7
    Timestamp := 0
    HeaderType := Normal
    PreviousHash := [0]
    IORoot := [3]
    StateRoot := [4]
    RoothashMessages := []
    StorageSignatures := [1, 1] }

/-- C2: `VerifyStorageReceiptSignatures h` checks every attached signature
against the canonical encoding of the receipt body re-derived from `h`; it
succeeds iff every signature opens correctly, and otherwise returns the
signature-verification error produced by the first failing signature (the
result is that of `find?` on the failing signatures). -/
theorem verifyStorageReceiptSignatures_spec {Msg Sig : Type}
    (verify : Sig → ReceiptBody → Bool) (h : Header Msg Sig) :
    (Header.VerifyStorageReceiptSignatures verify h = .ok () ↔
      ∀ sig ∈ h.StorageSignatures,
        verify sig (h.storageReceiptBody.MarshalCBOR) = true) ∧
    (Header.VerifyStorageReceiptSignatures verify h =
      match h.StorageSignatures.find?
          (fun sig => ! verify sig (h.storageReceiptBody.MarshalCBOR)) with
      | some _ => .error "signature verification failed"
      | none => .ok ()) := by
  have heq := openAllSignatures_eq_find verify (h.storageReceiptBody.MarshalCBOR)
    h.StorageSignatures
  refine ⟨?_, heq⟩
  rw [show Header.VerifyStorageReceiptSignatures verify h =
    openAllSignatures verify (h.storageReceiptBody.MarshalCBOR) h.StorageSignatures from rfl,
    heq]
  constructor
  · intro hok sig hmem
    by_contra hbad
    have hfind : (h.StorageSignatures.find?
        (fun s => ! verify s (h.storageReceiptBody.MarshalCBOR))).isSome := by
      rw [List.find?_isSome]
      exact ⟨sig, hmem, by simp [hbad]⟩
    obtain ⟨w, hw⟩ := Option.isSome_iff_exists.mp hfind
    rw [hw] at hok
    exact Except.noConfusion hok
  · intro hall
    have hfind : h.StorageSignatures.find?
        (fun s => ! verify s (h.storageReceiptBody.MarshalCBOR)) = none := by
      rw [List.find?_eq_none]
      intro s hmem
      simp [hall s hmem]
    rw [hfind]

/-- Witness for C2 at concrete inputs: a header whose two signatures all
verify is accepted, and one with a failing first signature is rejected. -/
theorem verifyStorageReceiptSignatures_spec_witness :
    Header.VerifyStorageReceiptSignatures (fun (s : Nat) (_ : ReceiptBody) => s == 1)
      exampleSigHeader = .ok () ∧
    Header.VerifyStorageReceiptSignatures (fun (s : Nat) (_ : ReceiptBody) => s == 2)
      exampleSigHeader = .error "signature verification failed" := by
  constructor
  · exact (verifyStorageReceiptSignatures_spec (fun s _ => s == 1)
      exampleSigHeader).1.mpr (by decide)
  · rw [(verifyStorageReceiptSignatures_spec (fun s _ => s == 2) exampleSigHeader).2]
    decide

/-- C8: a header with an empty `StorageSignatures` list passes
`VerifyStorageReceiptSignatures` vacuously. -/
theorem verifyStorageReceiptSignatures_empty {Msg Sig : Type}
    (verify : Sig → ReceiptBody → Bool) (h : Header Msg Sig)
    (he : h.StorageSignatures = []) :
    Header.VerifyStorageReceiptSignatures verify h = .ok () := by
  unfold Header.VerifyStorageReceiptSignatures
  rw [he]
  rfl

/-- Witness for C8: the all-rejecting verifier still accepts a header with no
signatures. -/
theorem verifyStorageReceiptSignatures_empty_witness :
    Header.VerifyStorageReceiptSignatures (fun (_ : Unit) (_ : ReceiptBody) => false)
      exampleHeader = .ok () :=
  verifyStorageReceiptSignatures_empty (fun _ _ => false) exampleHeader rfl

/-- C9: the receipt body that `VerifyStorageReceiptSignatures` encodes and
checks signatures against always carries version 1, and the header's own
`Version` field influences neither the body nor the verification result. -/
theorem storageReceiptBody_version {Msg Sig : Type}
    (verify : Sig → ReceiptBody → Bool) (h : Header Msg Sig) (v : Nat) :
    (Header.storageReceiptBody h).Version = 1 ∧
    Header.storageReceiptBody { h with Version := v } = Header.storageReceiptBody h ∧
    Header.VerifyStorageReceiptSignatures verify { h with Version := v } =
      Header.VerifyStorageReceiptSignatures verify h :=
  ⟨rfl, rfl, rfl⟩

/-- C3: `MostlyEqual` holds iff the two headers agree after clearing the
`StorageSignatures` list in both; headers differing only in
`StorageSignatures` compare equal, and headers differing in `Round` do not. -/
theorem mostlyEqual_spec {Msg Sig : Type} [DecidableEq Msg] [DecidableEq Sig]
    (h1 h2 : Header Msg Sig) :
    (Header.MostlyEqual h1 h2 = true ↔
      Header.clearStorageSignatures h1 = Header.clearStorageSignatures h2) ∧
    (∀ s : List Sig, Header.MostlyEqual h1 { h1 with StorageSignatures := s } = true) ∧
    (h1.Round ≠ h2.Round → Header.MostlyEqual h1 h2 = false) := by
  have hiff : ∀ g1 g2 : Header Msg Sig, Header.MostlyEqual g1 g2 = true ↔
      Header.clearStorageSignatures g1 = Header.clearStorageSignatures g2 := by
    intro g1 g2
    unfold Header.MostlyEqual Header.EncodedHash Header.clearStorageSignatures
    exact decide_eq_true_iff
  refine ⟨hiff h1 h2, ?_, ?_⟩
  · intro s
    exact (hiff h1 { h1 with StorageSignatures := s }).mpr rfl
  · intro hround
    cases hb : Header.MostlyEqual h1 h2 with
    | false => rfl
    | true =>
      exfalso
      have hcl := (hiff h1 h2).mp hb
      have hres := congrArg (fun g : Header Msg Sig => g.Round) hcl
      exact hround hres

/-- Witness for C3 at concrete inputs: two headers that differ in `Round` are
not mostly equal. -/
theorem mostlyEqual_spec_witness :
    Header.MostlyEqual exampleSigHeader { exampleSigHeader with Round := 8 } = false :=
  (mostlyEqual_spec exampleSigHeader { exampleSigHeader with Round := 8 }).2.2 (by decide)

/-- C10: the heap-explicit rendering of `MostlyEqual` leaves both pointed-to
headers (including their `StorageSignatures` lists) unchanged and computes
the same comparison result: the clearing happens on local copies only. -/
theorem mostlyEqualHeap_frame {Msg Sig : Type} [DecidableEq Msg] [DecidableEq Sig]
    (heap : Header Msg Sig × Header Msg Sig) :
    (Header.MostlyEqualHeap heap).2 = heap ∧
    (Header.MostlyEqualHeap heap).1 = Header.MostlyEqual heap.1 heap.2 :=
  ⟨rfl, rfl⟩

/-- Dispatching with every peer response missing finds no response. -/
lemma findSome?_const_none {α β : Type} (l : List α) :
    l.findSome? (fun _ => (none : Option β)) = none := by
  induction l with
  | nil => rfl
  | cons a t ih => simp [List.findSome?_cons, ih]

/-- C4: a read on the replicated storage client before any
committee-membership notification fails with `storageNotAvailable`, while the
same read after a (non-empty) committee is known but with every member
unreachable fails with `unavailable`; the two errors are distinct. -/
theorem storageClient_availability_errors {Conn Node V : Type}
    (connect : Node → Conn) (attempt : Conn → Option V) (members : List Node)
    (hm : members ≠ []) :
    syncGet (initialClientState Conn) attempt = .error .storageNotAvailable ∧
    syncGet (applyCommittee connect (initialClientState Conn) members)
      (fun _ => (none : Option V)) = .error .unavailable ∧
    ClientError.storageNotAvailable ≠ ClientError.unavailable := by
  refine ⟨rfl, ?_, by decide⟩
  have hne : (members.map connect).isEmpty = false := by
    cases members with
    | nil => exact absurd rfl hm
    | cons a l => rfl
  simp [syncGet, applyCommittee, hne, findSome?_const_none]

/-- Witness for C4 at concrete inputs: the fresh client reports
`storageNotAvailable`, the connected-but-unreachable client reports
`unavailable`. -/
theorem storageClient_availability_errors_witness :
    syncGet (initialClientState Nat) (fun _ => (none : Option Nat)) =
      .error .storageNotAvailable ∧
    syncGet (applyCommittee (fun n : Nat => n) (initialClientState Nat) [0])
      (fun _ => (none : Option Nat)) = .error .unavailable := by
  have hthm := storageClient_availability_errors (fun n : Nat => n)
    (fun _ => (none : Option Nat)) [0] (by decide)
  exact ⟨hthm.1, hthm.2.1⟩

/-- Counterexample to C5 as stated: the input `ab@cd@ef` does contain an
`@`-separated identity segment, yet `ConsensusAddress.UnmarshalText` fails
with the missing-identity error (the code requires exactly two segments). -/
theorem consensusAddress_noID_counterexample :
    ConsensusAddress.UnmarshalText "ab@cd@ef".data = .error .consensusAddressNoID ∧
    '@' ∈ "ab@cd@ef".data := by
  decide

/-- The text form of the concrete consensus-address example. -/
def exampleConsensusText : String :=
  "deadbeefdeadbeefdeadbeefdeadbeefdeadbeefdeadbeefdeadbeefdeadbeef@127.0.0.1:26656"

/-- The identity bytes of the concrete consensus-address example. -/
def exampleConsensusID : PublicKey :=
  [0xde, 0xad, 0xbe, 0xef, 0xde, 0xad, 0xbe, 0xef,
   0xde, 0xad, 0xbe, 0xef, 0xde, 0xad, 0xbe, 0xef,
   0xde, 0xad, 0xbe, 0xef, 0xde, 0xad, 0xbe, 0xef,
   0xde, 0xad, 0xbe, 0xef, 0xde, 0xad, 0xbe, 0xef]

/-- C5 (amended): parsing fails with the dedicated missing-identity error
exactly when splitting on `@` does not yield exactly two segments; with two
segments, the identity-parse or address-parse error is propagated (wrapped),
and two well-formed segments parse into the identity and the address; the
concrete example parses to the expected identity and endpoint. -/
theorem consensusAddressUnmarshalText_spec (text : Text) :
    (ConsensusAddress.UnmarshalText text = .error .consensusAddressNoID ↔
      (splitOnChar '@' text).length ≠ 2) ∧
    (∀ idText addrText, splitOnChar '@' text = [idText, addrText] →
      (∀ e, PublicKey.UnmarshalHex idText = .error e →
        ConsensusAddress.UnmarshalText text = .error (.idParseWrap e)) ∧
      (∀ pk e, PublicKey.UnmarshalHex idText = .ok pk →
        Address.UnmarshalText addrText = .error e →
        ConsensusAddress.UnmarshalText text = .error (.addrParseWrap e)) ∧
      (∀ pk addr, PublicKey.UnmarshalHex idText = .ok pk →
        Address.UnmarshalText addrText = .ok addr →
        ConsensusAddress.UnmarshalText text = .ok { ID := pk, Address := addr })) ∧
    ConsensusAddress.UnmarshalText exampleConsensusText.data =
      .ok { ID := exampleConsensusID
            Address := { IP := [127, 0, 0, 1], Port := 26656, Zone := "" } } := by
  refine ⟨?_, ?_, by decide⟩
  · rcases hsp : splitOnChar '@' text with _ | ⟨a, _ | ⟨b, _ | ⟨c, t⟩⟩⟩
    · simp [ConsensusAddress.UnmarshalText, hsp]
    · simp [ConsensusAddress.UnmarshalText, hsp]
    · cases hid : PublicKey.UnmarshalHex a with
      | error e => simp [ConsensusAddress.UnmarshalText, hsp, hid]
      | ok pk =>
        cases haddr : Address.UnmarshalText b with
        | error e => simp [ConsensusAddress.UnmarshalText, hsp, hid, haddr]
        | ok addr => simp [ConsensusAddress.UnmarshalText, hsp, hid, haddr]
    · simp [ConsensusAddress.UnmarshalText, hsp]
  · intro idText addrText hsp
    refine ⟨?_, ?_, ?_⟩
    · intro e hid
      simp [ConsensusAddress.UnmarshalText, hsp, hid]
    · intro pk e hid haddr
      simp [ConsensusAddress.UnmarshalText, hsp, hid, haddr]
    · intro pk addr hid haddr
      simp [ConsensusAddress.UnmarshalText, hsp, hid, haddr]

/-- Witness for C5 at a concrete input: text without `@` fails with the
missing-identity error. -/
theorem consensusAddressUnmarshalText_spec_witness :
    ConsensusAddress.UnmarshalText "xy".data = .error .consensusAddressNoID :=
  (consensusAddressUnmarshalText_spec "xy".data).1.mpr (by decide)

/-- Counterexample to C6 as stated: an address with a valid IPv4 IP but a
port that does not fit in 16 bits binary-encodes, yet decoding the encoding
fails with `invalidAddress` instead of returning the original address. -/
theorem protoAddress_roundtrip_counterexample :
    toProtoAddress { IP := [8, 8, 8, 8], Port := 65536, Zone := "" } =
      some { Transport := .TCPv4, Address := [8, 8, 8, 8], Port := 65536 } ∧
    parseProtoAddress { Transport := .TCPv4, Address := [8, 8, 8, 8], Port := 65536 } =
      .error .invalidAddress := by
  decide

/-- C6 (amended): for every address whose IP is in canonical form (a 4-byte
IPv4, or a 16-byte IPv6 that is not IPv4-mapped), whose port fits in 16 bits
and whose zone is empty, binary-encoding then binary-decoding returns the
original address; decoding fails with `invalidAddress` whenever the declared
byte length does not match the family tag or the port exceeds 16 bits. -/
theorem protoAddress_roundtrip (addr : Address)
    (hip : addr.IP.length = 4 ∨ (addr.IP.length = 16 ∧ addr.IP.To4 = none))
    (hlo : 0 ≤ addr.Port) (hhi : addr.Port < 65536) (hzone : addr.Zone = "") :
    (∃ pb, toProtoAddress addr = some pb ∧ parseProtoAddress pb = .ok addr) ∧
    (∀ pb : ProtoAddress,
      (pb.Transport = .TCPv4 ∧ pb.Address.length ≠ 4) ∨
        (pb.Transport = .TCPv6 ∧ pb.Address.length ≠ 16) ∨ 65535 < pb.Port →
      parseProtoAddress pb = .error .invalidAddress) := by
  obtain ⟨ip, port, zone⟩ := addr
  simp only at hip hlo hhi hzone
  subst hzone
  have hemod : port.emod 4294967296 = port := Int.emod_eq_of_lt hlo (by omega)
  have hcast : (Int.ofNat port.toNat) = port := Int.toNat_of_nonneg hlo
  have hple : ¬ 65535 < port.toNat := by omega
  constructor
  · rcases hip with h4 | ⟨h16, h4none⟩
    · have hTo4 : IP.To4 ip = some ip := by
        unfold IP.To4
        rw [if_pos h4]
      refine ⟨{ Transport := .TCPv4, Address := ip, Port := port.toNat }, ?_, ?_⟩
      · simp [toProtoAddress, hTo4]; omega
      · simp [parseProtoAddress, h4, hple, hcast]; omega
    · have hTo16 : IP.To16 ip = some ip := by
        unfold IP.To16
        rw [if_neg (by omega), if_pos h16]
      refine ⟨{ Transport := .TCPv6, Address := ip, Port := port.toNat }, ?_, ?_⟩
      · simp [toProtoAddress, h4none, hTo16]; omega
      · simp [parseProtoAddress, h16, hple, hcast]; omega
  · intro pb hc
    obtain ⟨tr, raw, prt⟩ := pb
    simp only at hc
    rcases hc with ⟨htr, hlen⟩ | ⟨htr, hlen⟩ | hprt
    · subst htr
      simp [parseProtoAddress, hlen]
    · subst htr
      simp [parseProtoAddress, hlen]
    · cases tr with
      | TCPv4 =>
        by_cases hl : raw.length = 4 <;> simp [parseProtoAddress, hl, hprt]
      | TCPv6 =>
        by_cases hl : raw.length = 16 <;> simp [parseProtoAddress, hl, hprt]
      | other => simp [parseProtoAddress]

/-- Witness for C6 at a concrete input: an IPv4 endpoint survives the binary
round trip. -/
theorem protoAddress_roundtrip_witness :
    ∃ pb, toProtoAddress { IP := [8, 8, 8, 8], Port := 26656, Zone := "" } = some pb ∧
      parseProtoAddress pb = .ok { IP := [8, 8, 8, 8], Port := 26656, Zone := "" } :=
  (protoAddress_roundtrip { IP := [8, 8, 8, 8], Port := 26656, Zone := "" }
    (Or.inl rfl) (by decide) (by decide) rfl).1

/-- C7: an address is classified unroutable exactly when its IP lies in one
of the networks of the fixed table `unroutableNetworks`; in particular the
private addresses 10.0.0.5 and 192.168.1.1 are unroutable while 8.8.8.8 is
routable. -/
theorem isRoutable_spec (a : Address) :
    (Address.IsRoutable a = false ↔
      ∃ v ∈ unroutableNetworks, v.Contains a.IP = true) ∧
    Address.IsRoutable { IP := [10, 0, 0, 5], Port := 0, Zone := "" } = false ∧
    Address.IsRoutable { IP := [192, 168, 1, 1], Port := 0, Zone := "" } = false ∧
    Address.IsRoutable { IP := [8, 8, 8, 8], Port := 0, Zone := "" } = true := by
  refine ⟨?_, by decide, by decide, by decide⟩
  unfold Address.IsRoutable
  constructor
  · intro hfalse
    by_contra hnone
    push_neg at hnone
    have hall : unroutableNetworks.all (fun v => ! v.Contains a.IP) = true := by
      rw [List.all_eq_true]
      intro v hv
      have hvf : v.Contains a.IP = false := by
        cases hcv : v.Contains a.IP with
        | false => rfl
        | true => exact absurd hcv (hnone v hv)
      simp [hvf]
    rw [hall] at hfalse
    exact Bool.noConfusion hfalse
  · rintro ⟨v, hv, hc⟩
    cases hall : unroutableNetworks.all (fun v => ! v.Contains a.IP) with
    | false => rfl
    | true =>
      exfalso
      have := List.all_eq_true.mp hall v hv
      rw [hc] at this
      exact Bool.noConfusion this

/-- Witness for C7 at a concrete input: 8.8.8.8 is routable, via the theorem
instantiated at the loopback-free address. -/
theorem isRoutable_spec_witness :
    Address.IsRoutable { IP := [8, 8, 8, 8], Port := 0, Zone := "" } = true :=
  (isRoutable_spec { IP := [], Port := 0, Zone := "" }).2.2.2

end OasisCore
